import Mathlib

/-
  Verification of the aranet-rs BLE client (`src/lib.rs`) against its
  natural-language specification.

  The embedding models byte buffers as `List ℕ` (each entry one byte),
  `std::time::Duration` values as whole seconds (`ℕ`), and the `f32`
  temperature as an exact rational (`ℚ`): every division the decoder
  performs on the test inputs used here is exact in `f32`, so the
  rational value coincides with the float the Rust code computes.
-/

set_option autoImplicit false

namespace Aranet

/-- CO2 concentration status, as displayed by the device
    (`enum Status { GREEN = 1, AMBER = 2, RED = 3 }`). -/
inductive Status where
  | GREEN
  | AMBER
  | RED
  deriving DecidableEq, Repr

/-- The wire value of a `Status` (the discriminants 1/2/3 in the Rust enum). -/
def Status.toWire : Status → ℕ
  | .GREEN => 1
  | .AMBER => 2
  | .RED => 3

/-- `impl From<u8> for Status`: wire values 1/2/3 map to GREEN/AMBER/RED;
    every other value hits `panic!("invalid semaphore value")`, modelled
    here as `none`. -/
def Status.fromWire : ℕ → Option Status
  | 1 => some Status.GREEN
  | 2 => some Status.AMBER
  | 3 => some Status.RED
  | _ => none

/-- Measurements from the Aranet4 device (`struct SensorData`).
    `interval` and `sinceLastUpdate` are the `Duration`s in whole seconds;
    `temperature` is the `f32` field as an exact rational. -/
structure SensorData where
  co2 : ℕ
  status : Status
  battery : ℕ
  humidity : ℕ
  pressure : ℕ
  temperature : ℚ
  interval : ℕ
  sinceLastUpdate : ℕ
  deriving DecidableEq, Repr

/-- Outcome of the decoding section of `Aranet4::measurements`
    (lines 233-253 of `lib.rs`): a fully populated record, an early
    return with `DeviceError::IO` from a failed `byteorder` read on the
    `Cursor`, or a process abort from `Status::from`'s `panic!`. -/
inductive DecodeResult where
  | ok (d : SensorData)
  | ioError
  | panicked
  deriving DecidableEq, Repr

/-- `ReadBytesExt::read_u8` on a `Cursor` over `buf` at position `pos`:
    returns the byte and the advanced position, or fails (UnexpectedEof)
    past the end. -/
def readU8 (buf : List ℕ) (pos : ℕ) : Option (ℕ × ℕ) :=
  match buf.get? pos with
  | some b => some (b, pos + 1)
  | none => none

/-- `ReadBytesExt::read_u16::<LittleEndian>` on a `Cursor` over `buf` at
    position `pos`: reads two bytes little-endian, or fails (UnexpectedEof)
    if fewer than two bytes remain. -/
def readU16LE (buf : List ℕ) (pos : ℕ) : Option (ℕ × ℕ) :=
  match buf.get? pos, buf.get? (pos + 1) with
  | some lo, some hi => some (lo + 256 * hi, pos + 2)
  | _, _ => none

/-- The pure decoding section of `Aranet4::measurements`: a `Cursor` over the
    payload read from the current-readings characteristic, eight sequential
    `byteorder` reads (each early-returning `DeviceError::IO` on failure via
    `?`), then construction of `SensorData`, where `Status::from(status)`
    panics on a wire value outside {1,2,3}.  `pressure` uses u16 integer
    division by 10; `temperature` is `raw as f32 / 20.0`, exact in `ℚ`. -/
def decodeMeasurements (buf : List ℕ) : DecodeResult :=
  match (do
    let (co2, p) ← readU16LE buf 0
    let (temperatureRaw, p) ← readU16LE buf p
    let (pressureRaw, p) ← readU16LE buf p
    let (humidity, p) ← readU8 buf p
    let (battery, p) ← readU8 buf p
    let (status, p) ← readU8 buf p
    let (updateInterval, p) ← readU16LE buf p
    let (sinceLastUpdate, _) ← readU16LE buf p
    pure (co2, temperatureRaw, pressureRaw, humidity, battery, status,
          updateInterval, sinceLastUpdate) : Option _) with
  | none => .ioError
  | some (co2, temperatureRaw, pressureRaw, humidity, battery, statusByte,
          updateInterval, sinceLastUpdate) =>
    match Status.fromWire statusByte with
    | none => .panicked
    | some status =>
      .ok { co2 := co2
            status := status
            battery := battery
            humidity := humidity
            pressure := pressureRaw / 10
            temperature := (temperatureRaw : ℚ) / 20
            interval := updateInterval
            sinceLastUpdate := sinceLastUpdate }

/-- The reading of the numeric fields of a decoded `SensorData` back into
    wire-scale values: co2, temperature × 20, pressure × 10, humidity,
    battery, status wire value, interval, time since last update. -/
def reencodeNumericFields (d : SensorData) : ℕ × ℚ × ℕ × ℕ × ℕ × ℕ × ℕ × ℕ :=
  (d.co2, d.temperature * 20, d.pressure * 10, d.humidity, d.battery,
   d.status.toWire, d.interval, d.sinceLastUpdate)

/-- A buffer shorter than 13 bytes makes one of the eight sequential
    `byteorder` reads fail, so decoding early-returns `DeviceError::IO`. -/
theorem decode_short (buf : List ℕ) (h : buf.length < 13) :
    decodeMeasurements buf = .ioError := by
  rcases buf with _ | ⟨b0, _ | ⟨b1, _ | ⟨b2, _ | ⟨b3, _ | ⟨b4, _ | ⟨b5, _ | ⟨b6, _ | ⟨b7, _ | ⟨b8, _ | ⟨b9, _ | ⟨b10, _ | ⟨b11, _ | ⟨b12, rest⟩⟩⟩⟩⟩⟩⟩⟩⟩⟩⟩⟩⟩
  case nil => rfl
  all_goals first
    | rfl
    | (simp only [List.length] at h; omega)

/-- On a buffer of at least 13 bytes every read succeeds and decoding is
    determined by the first 13 bytes alone: the result is `panicked` when the
    status byte is outside {1,2,3} and otherwise the fully decoded record. -/
theorem decode_long (b0 b1 b2 b3 b4 b5 b6 b7 b8 b9 b10 b11 b12 : ℕ) (rest : List ℕ) :
    decodeMeasurements (b0 :: b1 :: b2 :: b3 :: b4 :: b5 :: b6 :: b7 :: b8 :: b9 :: b10 :: b11 :: b12 :: rest)
      = match Status.fromWire b8 with
        | none => .panicked
        | some s =>
          .ok { co2 := b0 + 256 * b1, status := s, battery := b7, humidity := b6,
                pressure := (b4 + 256 * b5) / 10,
                temperature := ((b2 + 256 * b3 : ℕ) : ℚ) / 20,
                interval := b9 + 256 * b10, sinceLastUpdate := b11 + 256 * b12 } := rfl

/-- C1 (code bug evidence): on the 13-byte buffer whose status byte
    (offset 8) is 0, the decode in `Aranet4::measurements` reaches
    `Status::from(0)` and aborts via `panic!("invalid semaphore value")`;
    it does not return a decode error as the claim requires. -/
theorem C1_panics_on_invalid_status :
    decodeMeasurements [0xE8, 0x03, 0x80, 0x1B, 0x20, 0x03, 0x32, 0x64, 0x00,
                        0x3C, 0x00, 0x05, 0x00] = .panicked := by decide

/-- C2: for every input buffer shorter than 13 bytes, the measurement decode
    returns the I/O-kind `DeviceError` outcome: it neither panics nor returns
    any (even partially populated) `SensorData` record. -/
theorem C2_short_buffer_is_io_error (buf : List ℕ) (h : buf.length < 13) :
    decodeMeasurements buf = .ioError := decode_short buf h

/-- Witness for C2 at the empty buffer. -/
theorem C2_short_buffer_is_io_error_witness :
    ([] : List ℕ).length < 13 ∧ decodeMeasurements [] = .ioError :=
  ⟨by decide, C2_short_buffer_is_io_error [] (by decide)⟩

/-- C3: decoding the specified 13-byte buffer yields co2 = 1000 ppm,
    temperature = 7040 / 20 = 352 (exact division), pressure = 800 / 10 = 80
    (integer division), humidity = 50, battery = 100, status = GREEN (wire 1),
    interval = 60 s, since_last_update = 5 s; multi-byte fields little-endian. -/
theorem C3_decodes_reference_buffer :
    decodeMeasurements [0xE8, 0x03, 0x80, 0x1B, 0x20, 0x03, 0x32, 0x64, 0x01,
                        0x3C, 0x00, 0x05, 0x00]
      = .ok ⟨1000, .GREEN, 100, 50, 80, 352, 60, 5⟩ := by
  have h : decodeMeasurements [0xE8, 0x03, 0x80, 0x1B, 0x20, 0x03, 0x32, 0x64,
      0x01, 0x3C, 0x00, 0x05, 0x00]
      = .ok ⟨1000, .GREEN, 100, 50, 80, (7040 : ℚ) / 20, 60, 5⟩ := rfl
  rw [h]
  norm_num

/-- C4: decoding a valid 13-byte little-endian buffer with status byte in
    {1,2,3} succeeds, and re-encoding the numeric fields (co2, temperature
    times 20, pressure times 10, humidity, battery, status wire value,
    interval, since-last-update) reproduces the original raw integers
    exactly, except pressure, which reproduces the raw value minus its
    remainder mod 10 (integer division drops the remainder, staying within
    one scaling unit); temperature times 20 recovers the raw value exactly. -/
theorem C4_roundtrip (b0 b1 b2 b3 b4 b5 b6 b7 b8 b9 b10 b11 b12 : ℕ)
    (hb : ∀ b ∈ [b0, b1, b2, b3, b4, b5, b6, b7, b8, b9, b10, b11, b12], b < 256)
    (hs : b8 = 1 ∨ b8 = 2 ∨ b8 = 3) :
    ∃ d, decodeMeasurements [b0, b1, b2, b3, b4, b5, b6, b7, b8, b9, b10, b11, b12] = .ok d
      ∧ reencodeNumericFields d
          = (b0 + 256 * b1, ((b2 + 256 * b3 : ℕ) : ℚ), (b4 + 256 * b5) - (b4 + 256 * b5) % 10,
             b6, b7, b8, b9 + 256 * b10, b11 + 256 * b12)
      ∧ (b4 + 256 * b5) - (b4 + 256 * b5) % 10 ≤ b4 + 256 * b5
      ∧ b4 + 256 * b5 < ((b4 + 256 * b5) - (b4 + 256 * b5) % 10) + 10 := by
  rcases hs with h | h | h <;> subst h <;>
    refine ⟨_, decode_long .., ?_, by omega, by omega⟩ <;>
    · simp only [reencodeNumericFields, Status.toWire, Prod.mk.injEq]
      refine ⟨trivial, ?_, by omega, trivial⟩
      rw [div_mul_cancel₀]
      norm_num

/-- Witness for C4 at the reference buffer. -/
theorem C4_roundtrip_witness :
    (∀ b ∈ [0xE8, 0x03, 0x80, 0x1B, 0x20, 0x03, 0x32, 0x64, 1, 0x3C, 0, 5, 0], b < 256)
    ∧ ((1 : ℕ) = 1 ∨ (1 : ℕ) = 2 ∨ (1 : ℕ) = 3)
    ∧ ∃ d, decodeMeasurements [0xE8, 0x03, 0x80, 0x1B, 0x20, 0x03, 0x32, 0x64, 1, 0x3C, 0, 5, 0] = .ok d
      ∧ reencodeNumericFields d
          = (0xE8 + 256 * 0x03, ((0x80 + 256 * 0x1B : ℕ) : ℚ),
             (0x20 + 256 * 0x03) - (0x20 + 256 * 0x03) % 10,
             0x32, 0x64, 1, 0x3C + 256 * 0, 5 + 256 * 0)
      ∧ (0x20 + 256 * 0x03) - (0x20 + 256 * 0x03) % 10 ≤ 0x20 + 256 * 0x03
      ∧ 0x20 + 256 * 0x03 < ((0x20 + 256 * 0x03) - (0x20 + 256 * 0x03) % 10) + 10 :=
  ⟨by decide, by decide,
   C4_roundtrip 0xE8 0x03 0x80 0x1B 0x20 0x03 0x32 0x64 1 0x3C 0 5 0 (by decide) (by decide)⟩

/-- C10: on any buffer of length at least 13 whose status byte (offset 8) is
    in {1,2,3}, decoding succeeds and the result depends only on the first
    13 bytes: trailing bytes are silently ignored, not rejected. -/
theorem C10_trailing_bytes_ignored (buf : List ℕ) (h : 13 ≤ buf.length)
    (hs : buf.getD 8 0 = 1 ∨ buf.getD 8 0 = 2 ∨ buf.getD 8 0 = 3) :
    (∃ d, decodeMeasurements buf = .ok d)
      ∧ decodeMeasurements buf = decodeMeasurements (buf.take 13) := by
  rcases buf with _ | ⟨b0, _ | ⟨b1, _ | ⟨b2, _ | ⟨b3, _ | ⟨b4, _ | ⟨b5, _ | ⟨b6, _ | ⟨b7, _ | ⟨b8, _ | ⟨b9, _ | ⟨b10, _ | ⟨b11, _ | ⟨b12, rest⟩⟩⟩⟩⟩⟩⟩⟩⟩⟩⟩⟩⟩ <;>
    simp only [List.length] at h <;> try omega
  simp only [List.getD, List.get?] at hs
  constructor
  · rcases hs with h8 | h8 | h8 <;> subst h8 <;> exact ⟨_, decode_long ..⟩
  · show _ = decodeMeasurements (List.take 13 _)
    simp only [List.take]
    rw [decode_long, decode_long]

/-- Witness for C10 at a 14-byte buffer with one trailing byte. -/
theorem C10_trailing_bytes_ignored_witness :
    13 ≤ ([0xE8, 0x03, 0x80, 0x1B, 0x20, 0x03, 0x32, 0x64, 1, 0x3C, 0, 5, 0, 99] : List ℕ).length
    ∧ (([0xE8, 0x03, 0x80, 0x1B, 0x20, 0x03, 0x32, 0x64, 1, 0x3C, 0, 5, 0, 99] : List ℕ).getD 8 0 = 1
        ∨ ([0xE8, 0x03, 0x80, 0x1B, 0x20, 0x03, 0x32, 0x64, 1, 0x3C, 0, 5, 0, 99] : List ℕ).getD 8 0 = 2
        ∨ ([0xE8, 0x03, 0x80, 0x1B, 0x20, 0x03, 0x32, 0x64, 1, 0x3C, 0, 5, 0, 99] : List ℕ).getD 8 0 = 3)
    ∧ ((∃ d, decodeMeasurements [0xE8, 0x03, 0x80, 0x1B, 0x20, 0x03, 0x32, 0x64, 1, 0x3C, 0, 5, 0, 99] = .ok d)
      ∧ decodeMeasurements [0xE8, 0x03, 0x80, 0x1B, 0x20, 0x03, 0x32, 0x64, 1, 0x3C, 0, 5, 0, 99]
          = decodeMeasurements (([0xE8, 0x03, 0x80, 0x1B, 0x20, 0x03, 0x32, 0x64, 1, 0x3C, 0, 5, 0, 99] : List ℕ).take 13)) :=
  ⟨by decide, by decide,
   C10_trailing_bytes_ignored [0xE8, 0x03, 0x80, 0x1B, 0x20, 0x03, 0x32, 0x64, 1, 0x3C, 0, 5, 0, 99]
     (by decide) (by decide)⟩

/-! ### Identity resolution (`Aranet4::info`, lib.rs lines 155-225)

The six GATT Device Information characteristics are modelled as pairs of a
UUID string (the source matches on `characteristic.uuid.to_string()`) and
the UTF-8 decoded payload as a list of characters, with `NUL` standing for
the zero byte.  The embedding covers the successful-read, valid-UTF-8 path
that the stripping and missing-attribute claims quantify over; transport
errors and invalid UTF-8 early-return before any of that logic runs. -/

/-- The NUL character (the zero byte of a NUL-padded payload). -/
def NUL : Char := Char.ofNat 0

/-- Rust's `trim_end_matches('\0')`: drop every trailing NUL. -/
def trimEndNuls (s : List Char) : List Char :=
  (s.reverse.dropWhile (fun c => c = NUL)).reverse

/-- A GATT characteristic as `info` sees it: its UUID rendered as a string,
    and its successfully read, UTF-8 decoded value. -/
structure DICharacteristic where
  uuid : String
  value : List Char
  deriving DecidableEq, Repr

def uuidModelNumber : String := "00002a24-0000-1000-8000-00805f9b34fb"
def uuidSerialNumber : String := "00002a25-0000-1000-8000-00805f9b34fb"
def uuidFirmwareRevision : String := "00002a26-0000-1000-8000-00805f9b34fb"
def uuidHardwareRevision : String := "00002a27-0000-1000-8000-00805f9b34fb"
def uuidSoftwareRevision : String := "00002a28-0000-1000-8000-00805f9b34fb"
def uuidManufacturerName : String := "00002a29-0000-1000-8000-00805f9b34fb"

/-- The six mutable `Option` locals of `Aranet4::info`, all `None` initially. -/
structure InfoAcc where
  modelNumber : Option (List Char) := none
  serialNumber : Option (List Char) := none
  firmwareRevision : Option (List Char) := none
  hardwareRevision : Option (List Char) := none
  softwareRevision : Option (List Char) := none
  manufacturerName : Option (List Char) := none
  deriving DecidableEq, Repr

/-- One iteration of the `for characteristic in ...` loop of `Aranet4::info`:
    the UUID-string match assigns the decoded value to the matching field —
    with trailing NULs stripped for model number and manufacturer name only —
    and leaves everything else unchanged. -/
def infoStep (acc : InfoAcc) (c : DICharacteristic) : InfoAcc :=
  if c.uuid = uuidModelNumber then { acc with modelNumber := some (trimEndNuls c.value) }
  else if c.uuid = uuidSerialNumber then { acc with serialNumber := some c.value }
  else if c.uuid = uuidFirmwareRevision then { acc with firmwareRevision := some c.value }
  else if c.uuid = uuidHardwareRevision then { acc with hardwareRevision := some c.value }
  else if c.uuid = uuidSoftwareRevision then { acc with softwareRevision := some c.value }
  else if c.uuid = uuidManufacturerName then { acc with manufacturerName := some (trimEndNuls c.value) }
  else acc

/-- The assembled identity record (`struct Info`), with each string as the
    list of its characters. -/
structure InfoRec where
  modelNumber : List Char
  serialNumber : List Char
  firmwareRevision : List Char
  hardwareRevision : List Char
  softwareRevision : List Char
  manufacturerName : List Char
  deriving DecidableEq, Repr

/-- Outcome of `Aranet4::info` on the modelled path: a full record, or
    `DeviceError::MissingAttribute(field)`. -/
inductive InfoResult where
  | ok (i : InfoRec)
  | missingAttribute (field : String)
  deriving DecidableEq, Repr

/-- `Aranet4::info` (lines 160-224): fold the loop over the device's
    characteristics, then check the six locals in source order — model,
    serial, firmware, hardware, software, manufacturer — returning
    `MissingAttribute` at the first `None`, and the full record otherwise. -/
def info (cs : List DICharacteristic) : InfoResult :=
  let acc := cs.foldl infoStep {}
  match acc.modelNumber with
  | none => .missingAttribute "model_number"
  | some modelNumber =>
  match acc.serialNumber with
  | none => .missingAttribute "serial_number"
  | some serialNumber =>
  match acc.firmwareRevision with
  | none => .missingAttribute "firmware_revision"
  | some firmwareRevision =>
  match acc.hardwareRevision with
  | none => .missingAttribute "hardware_revision"
  | some hardwareRevision =>
  match acc.softwareRevision with
  | none => .missingAttribute "software_revision"
  | some softwareRevision =>
  match acc.manufacturerName with
  | none => .missingAttribute "manufacturer_name"
  | some manufacturerName =>
    .ok ⟨modelNumber, serialNumber, firmwareRevision, hardwareRevision,
         softwareRevision, manufacturerName⟩

/-- The six identity fields, paired with their characteristic UUIDs. -/
def sixFields : List (String × String) :=
  [("model_number", uuidModelNumber), ("serial_number", uuidSerialNumber),
   ("firmware_revision", uuidFirmwareRevision), ("hardware_revision", uuidHardwareRevision),
   ("software_revision", uuidSoftwareRevision), ("manufacturer_name", uuidManufacturerName)]

theorem infoStep_model (acc : InfoAcc) (c : DICharacteristic) :
    (infoStep acc c).modelNumber
      = if c.uuid = uuidModelNumber then some (trimEndNuls c.value) else acc.modelNumber := by
  unfold infoStep
  split_ifs <;> rfl

theorem infoStep_serial (acc : InfoAcc) (c : DICharacteristic) :
    (infoStep acc c).serialNumber
      = if c.uuid = uuidSerialNumber then some c.value else acc.serialNumber := by
  unfold infoStep
  split_ifs <;> first | rfl | simp_all [uuidModelNumber, uuidSerialNumber,
    uuidFirmwareRevision, uuidHardwareRevision, uuidSoftwareRevision, uuidManufacturerName]

theorem infoStep_firmware (acc : InfoAcc) (c : DICharacteristic) :
    (infoStep acc c).firmwareRevision
      = if c.uuid = uuidFirmwareRevision then some c.value else acc.firmwareRevision := by
  unfold infoStep
  split_ifs <;> first | rfl | simp_all [uuidModelNumber, uuidSerialNumber,
    uuidFirmwareRevision, uuidHardwareRevision, uuidSoftwareRevision, uuidManufacturerName]

theorem infoStep_hardware (acc : InfoAcc) (c : DICharacteristic) :
    (infoStep acc c).hardwareRevision
      = if c.uuid = uuidHardwareRevision then some c.value else acc.hardwareRevision := by
  unfold infoStep
  split_ifs <;> first | rfl | simp_all [uuidModelNumber, uuidSerialNumber,
    uuidFirmwareRevision, uuidHardwareRevision, uuidSoftwareRevision, uuidManufacturerName]

theorem infoStep_software (acc : InfoAcc) (c : DICharacteristic) :
    (infoStep acc c).softwareRevision
      = if c.uuid = uuidSoftwareRevision then some c.value else acc.softwareRevision := by
  unfold infoStep
  split_ifs <;> first | rfl | simp_all [uuidModelNumber, uuidSerialNumber,
    uuidFirmwareRevision, uuidHardwareRevision, uuidSoftwareRevision, uuidManufacturerName]

theorem infoStep_manufacturer (acc : InfoAcc) (c : DICharacteristic) :
    (infoStep acc c).manufacturerName
      = if c.uuid = uuidManufacturerName then some (trimEndNuls c.value) else acc.manufacturerName := by
  unfold infoStep
  split_ifs <;> first | rfl | simp_all [uuidModelNumber, uuidSerialNumber,
    uuidFirmwareRevision, uuidHardwareRevision, uuidSoftwareRevision, uuidManufacturerName]

theorem foldl_model_none (cs : List DICharacteristic) (acc : InfoAcc) :
    (cs.foldl infoStep acc).modelNumber = none
      ↔ acc.modelNumber = none ∧ ∀ c ∈ cs, c.uuid ≠ uuidModelNumber := by
  induction cs generalizing acc with
  | nil => simp
  | cons c cs ih =>
    rw [List.foldl_cons, ih, infoStep_model]
    by_cases hc : c.uuid = uuidModelNumber <;> simp [hc]

theorem foldl_serial_none (cs : List DICharacteristic) (acc : InfoAcc) :
    (cs.foldl infoStep acc).serialNumber = none
      ↔ acc.serialNumber = none ∧ ∀ c ∈ cs, c.uuid ≠ uuidSerialNumber := by
  induction cs generalizing acc with
  | nil => simp
  | cons c cs ih =>
    rw [List.foldl_cons, ih, infoStep_serial]
    by_cases hc : c.uuid = uuidSerialNumber <;> simp [hc]

theorem foldl_firmware_none (cs : List DICharacteristic) (acc : InfoAcc) :
    (cs.foldl infoStep acc).firmwareRevision = none
      ↔ acc.firmwareRevision = none ∧ ∀ c ∈ cs, c.uuid ≠ uuidFirmwareRevision := by
  induction cs generalizing acc with
  | nil => simp
  | cons c cs ih =>
    rw [List.foldl_cons, ih, infoStep_firmware]
    by_cases hc : c.uuid = uuidFirmwareRevision <;> simp [hc]

theorem foldl_hardware_none (cs : List DICharacteristic) (acc : InfoAcc) :
    (cs.foldl infoStep acc).hardwareRevision = none
      ↔ acc.hardwareRevision = none ∧ ∀ c ∈ cs, c.uuid ≠ uuidHardwareRevision := by
  induction cs generalizing acc with
  | nil => simp
  | cons c cs ih =>
    rw [List.foldl_cons, ih, infoStep_hardware]
    by_cases hc : c.uuid = uuidHardwareRevision <;> simp [hc]

theorem foldl_software_none (cs : List DICharacteristic) (acc : InfoAcc) :
    (cs.foldl infoStep acc).softwareRevision = none
      ↔ acc.softwareRevision = none ∧ ∀ c ∈ cs, c.uuid ≠ uuidSoftwareRevision := by
  induction cs generalizing acc with
  | nil => simp
  | cons c cs ih =>
    rw [List.foldl_cons, ih, infoStep_software]
    by_cases hc : c.uuid = uuidSoftwareRevision <;> simp [hc]

theorem foldl_manufacturer_none (cs : List DICharacteristic) (acc : InfoAcc) :
    (cs.foldl infoStep acc).manufacturerName = none
      ↔ acc.manufacturerName = none ∧ ∀ c ∈ cs, c.uuid ≠ uuidManufacturerName := by
  induction cs generalizing acc with
  | nil => simp
  | cons c cs ih =>
    rw [List.foldl_cons, ih, infoStep_manufacturer]
    by_cases hc : c.uuid = uuidManufacturerName <;> simp [hc]

/-- C5: with all six identity characteristics present, trailing NULs are
    stripped from exactly the model number and the manufacturer name, while
    the serial number and the firmware, hardware and software revisions are
    returned unmodified whatever their payload (in particular a padded
    firmware revision keeps its NULs); concretely the manufacturer payload
    "Acme" followed by two NUL bytes decodes to "Acme". -/
theorem C5_nul_stripping_exactly_two_fields (m s f hw sw man : List Char) :
    info [⟨uuidModelNumber, m⟩, ⟨uuidSerialNumber, s⟩, ⟨uuidFirmwareRevision, f⟩,
          ⟨uuidHardwareRevision, hw⟩, ⟨uuidSoftwareRevision, sw⟩,
          ⟨uuidManufacturerName, man⟩]
      = .ok ⟨trimEndNuls m, s, f, hw, sw, trimEndNuls man⟩
    ∧ trimEndNuls ("Acme".toList ++ [NUL, NUL]) = "Acme".toList :=
  ⟨rfl, by decide⟩

/-- C6: whenever at least one of the six standard identity characteristics is
    absent from the device's characteristic set, `info` fails with
    `MissingAttribute` naming a field whose characteristic is genuinely
    absent; in particular it never returns an `ok` record with a substituted
    default. -/
theorem C6_missing_attribute (cs : List DICharacteristic)
    (h : ∃ p ∈ sixFields, ∀ c ∈ cs, c.uuid ≠ p.2) :
    ∃ p ∈ sixFields, info cs = .missingAttribute p.1 ∧ ∀ c ∈ cs, c.uuid ≠ p.2 := by
  by_cases hm : (cs.foldl infoStep {}).modelNumber = none
  · exact ⟨("model_number", uuidModelNumber), by simp [sixFields],
      by simp only [info, hm], ((foldl_model_none cs {}).mp hm).2⟩
  · obtain ⟨mv, hm⟩ := Option.ne_none_iff_exists'.mp hm
    by_cases hs : (cs.foldl infoStep {}).serialNumber = none
    · exact ⟨("serial_number", uuidSerialNumber), by simp [sixFields],
        by simp only [info, hm, hs], ((foldl_serial_none cs {}).mp hs).2⟩
    · obtain ⟨sv, hs⟩ := Option.ne_none_iff_exists'.mp hs
      by_cases hf : (cs.foldl infoStep {}).firmwareRevision = none
      · exact ⟨("firmware_revision", uuidFirmwareRevision), by simp [sixFields],
          by simp only [info, hm, hs, hf], ((foldl_firmware_none cs {}).mp hf).2⟩
      · obtain ⟨fv, hf⟩ := Option.ne_none_iff_exists'.mp hf
        by_cases hh : (cs.foldl infoStep {}).hardwareRevision = none
        · exact ⟨("hardware_revision", uuidHardwareRevision), by simp [sixFields],
            by simp only [info, hm, hs, hf, hh], ((foldl_hardware_none cs {}).mp hh).2⟩
        · obtain ⟨hv, hh⟩ := Option.ne_none_iff_exists'.mp hh
          by_cases hw : (cs.foldl infoStep {}).softwareRevision = none
          · exact ⟨("software_revision", uuidSoftwareRevision), by simp [sixFields],
              by simp only [info, hm, hs, hf, hh, hw], ((foldl_software_none cs {}).mp hw).2⟩
          · obtain ⟨wv, hw⟩ := Option.ne_none_iff_exists'.mp hw
            by_cases hman : (cs.foldl infoStep {}).manufacturerName = none
            · exact ⟨("manufacturer_name", uuidManufacturerName), by simp [sixFields],
                by simp only [info, hm, hs, hf, hh, hw, hman], ((foldl_manufacturer_none cs {}).mp hman).2⟩
            · exfalso
              obtain ⟨nv, hman⟩ := Option.ne_none_iff_exists'.mp hman
              obtain ⟨p, hp, habs⟩ := h
              simp only [sixFields, List.mem_cons, List.not_mem_nil, or_false] at hp
              rcases hp with rfl | rfl | rfl | rfl | rfl | rfl
              · exact absurd ((foldl_model_none cs {}).mpr ⟨rfl, habs⟩) (by simp [hm])
              · exact absurd ((foldl_serial_none cs {}).mpr ⟨rfl, habs⟩) (by simp [hs])
              · exact absurd ((foldl_firmware_none cs {}).mpr ⟨rfl, habs⟩) (by simp [hf])
              · exact absurd ((foldl_hardware_none cs {}).mpr ⟨rfl, habs⟩) (by simp [hh])
              · exact absurd ((foldl_software_none cs {}).mpr ⟨rfl, habs⟩) (by simp [hw])
              · exact absurd ((foldl_manufacturer_none cs {}).mpr ⟨rfl, habs⟩) (by simp [hman])

/-- Witness for C6: a characteristic set with the serial-number
    characteristic absent and the other five present satisfies the
    hypothesis, and there `info` reports exactly "serial_number". -/
theorem C6_missing_attribute_witness :
    (∃ p ∈ sixFields, ∀ c ∈ [(⟨uuidModelNumber, "M".toList⟩ : DICharacteristic),
        ⟨uuidFirmwareRevision, "1".toList⟩, ⟨uuidHardwareRevision, "2".toList⟩,
        ⟨uuidSoftwareRevision, "3".toList⟩, ⟨uuidManufacturerName, "A".toList⟩],
        c.uuid ≠ p.2)
    ∧ (∃ p ∈ sixFields, info [(⟨uuidModelNumber, "M".toList⟩ : DICharacteristic),
        ⟨uuidFirmwareRevision, "1".toList⟩, ⟨uuidHardwareRevision, "2".toList⟩,
        ⟨uuidSoftwareRevision, "3".toList⟩, ⟨uuidManufacturerName, "A".toList⟩]
          = .missingAttribute p.1
        ∧ ∀ c ∈ [(⟨uuidModelNumber, "M".toList⟩ : DICharacteristic),
            ⟨uuidFirmwareRevision, "1".toList⟩, ⟨uuidHardwareRevision, "2".toList⟩,
            ⟨uuidSoftwareRevision, "3".toList⟩, ⟨uuidManufacturerName, "A".toList⟩],
            c.uuid ≠ p.2)
    ∧ info [(⟨uuidModelNumber, "M".toList⟩ : DICharacteristic),
        ⟨uuidFirmwareRevision, "1".toList⟩, ⟨uuidHardwareRevision, "2".toList⟩,
        ⟨uuidSoftwareRevision, "3".toList⟩, ⟨uuidManufacturerName, "A".toList⟩]
          = .missingAttribute "serial_number" :=
  ⟨by decide,
   C6_missing_attribute [⟨uuidModelNumber, "M".toList⟩,
     ⟨uuidFirmwareRevision, "1".toList⟩, ⟨uuidHardwareRevision, "2".toList⟩,
     ⟨uuidSoftwareRevision, "3".toList⟩, ⟨uuidManufacturerName, "A".toList⟩] (by decide),
   by decide⟩

/-! ### Connectivity checks before reads (lib.rs lines 155-158 and 228-233)

Both read operations open with the same two lines: query the transport's
`is_connected`, and call `reconnect` (a plain `connect` on the peripheral)
when it reports false, before issuing any characteristic read.  The
embedding records the transport calls each operation makes, in order, as a
trace, alongside the value the operation computes; reconnection is taken
on its success path (its failure early-returns before any read). -/

/-- The transport operations a read issues, in order. -/
inductive BleOp where
  | isConnected
  | connect
  | readGatt
  deriving DecidableEq, Repr

/-- The environment a measurement read runs against: the platform-reported
    connectivity at the moment of the read, and the bytes the
    current-readings characteristic returns. -/
structure MeasurementEnv where
  connected : Bool
  payload : List ℕ

/-- `Aranet4::measurements` as trace plus result: check `is_connected`,
    reconnect when it is false, read the characteristic, decode. -/
def measurementsRun (env : MeasurementEnv) : List BleOp × DecodeResult :=
  let pre := if env.connected then [BleOp.isConnected]
             else [BleOp.isConnected, BleOp.connect]
  (pre ++ [BleOp.readGatt], decodeMeasurements env.payload)

/-- Whether a UUID string is one of the six identity characteristics the
    `info` loop reads. -/
def isIdentityUuid (u : String) : Bool :=
  u = uuidModelNumber ∨ u = uuidSerialNumber ∨ u = uuidFirmwareRevision
    ∨ u = uuidHardwareRevision ∨ u = uuidSoftwareRevision ∨ u = uuidManufacturerName

/-- The environment an identity read runs against. -/
structure InfoEnv where
  connected : Bool
  characteristics : List DICharacteristic

/-- The characteristic reads the `info` loop issues: one per characteristic
    whose UUID matches an identity field; the others are skipped unread. -/
def infoReadOps (cs : List DICharacteristic) : List BleOp :=
  cs.filterMap (fun c => if isIdentityUuid c.uuid then some BleOp.readGatt else none)

/-- `Aranet4::info` as trace plus result: check `is_connected`, reconnect
    when it is false, then read the matching characteristics and assemble. -/
def infoRun (env : InfoEnv) : List BleOp × InfoResult :=
  let pre := if env.connected then [BleOp.isConnected]
             else [BleOp.isConnected, BleOp.connect]
  (pre ++ infoReadOps env.characteristics, info env.characteristics)

/-- C7: in every environment, both read operations issue the connectivity
    query as their very first transport call — connectivity is re-checked,
    never assumed; when the platform reports disconnected, a connect is
    issued before the characteristic read; and a stale connection does not
    change the read's outcome (the operation still computes its result from
    the payload rather than failing). -/
theorem C7_reconnect_before_read (b : Bool) (payload : List ℕ) (cs : List DICharacteristic) :
    (measurementsRun ⟨b, payload⟩).1.head? = some BleOp.isConnected
    ∧ (measurementsRun ⟨false, payload⟩).1 = [BleOp.isConnected, BleOp.connect, BleOp.readGatt]
    ∧ (measurementsRun ⟨b, payload⟩).2 = decodeMeasurements payload
    ∧ (infoRun ⟨b, cs⟩).1.head? = some BleOp.isConnected
    ∧ (infoRun ⟨false, cs⟩).1 = [BleOp.isConnected, BleOp.connect] ++ infoReadOps cs
    ∧ (infoRun ⟨b, cs⟩).2 = info cs := by
  cases b <;> simp [measurementsRun, infoRun]

/-! ### Discovery (`connect` and `find_device`, lib.rs lines 39-78 and 271-288)

The polling loop queries the adapter's peripherals, skips any peripheral
without an advertised local name, returns the first whose name starts with
"Aranet4", and otherwise sleeps one second and repeats, forever.
`connect` races this loop against a 10-second sleep with tokio's `select`.
Time is modelled discretely: the scan of round n happens at second n
(rounds 0 through 9 complete before the timer fires at second 10), and
`polls n` is the peripheral list the adapter reports in round n.
Advertised names are lists of characters. -/

/-- Rust's `str::starts_with` on the character sequences of the strings. -/
def startsWithChars (s pat : List Char) : Bool :=
  match s, pat with
  | _, [] => true
  | [], _ :: _ => false
  | c :: cs, d :: ds => c = d && startsWithChars cs ds

/-- A peripheral as `find_device` sees it: its optional advertised name. -/
structure PeripheralM where
  localName : Option (List Char)
  deriving DecidableEq, Repr

/-- One round of the `for peripheral in peripherals` body: skip a peripheral
    with no local name (`let Some(name) ... else continue`), return the first
    whose name starts with "Aranet4". -/
def scanFirstMatch : List PeripheralM → Option PeripheralM
  | [] => none
  | p :: rest =>
    match p.localName with
    | none => scanFirstMatch rest
    | some name =>
      if startsWithChars name "Aranet4".toList then some p else scanFirstMatch rest

/-- The `find_device` loop truncated at the timeout: scan round `start`, and
    on no match recurse into the next round while fuel remains.  The loop
    itself has no exit of its own — exhausted fuel is the timer firing. -/
def findDeviceFrom (polls : ℕ → List PeripheralM) (start fuel : ℕ) : Option PeripheralM :=
  match fuel with
  | 0 => none
  | f + 1 =>
    match scanFirstMatch (polls start) with
    | some p => some p
    | none => findDeviceFrom polls (start + 1) f

/-- Outcome of the `tokio::select!` race in `connect`. -/
inductive ConnectOutcome where
  | ok (p : PeripheralM)
  | searchTimeout
  deriving DecidableEq, Repr

/-- The discovery race of `connect`: the polling search wins with the first
    match found in rounds 0 through 9; otherwise the 10-second timer wins
    and `connect` returns `ConnectionError::SearchTimeout`. -/
def connectModel (polls : ℕ → List PeripheralM) : ConnectOutcome :=
  match findDeviceFrom polls 0 10 with
  | some p => .ok p
  | none => .searchTimeout

theorem scanFirstMatch_eq_none (ps : List PeripheralM)
    (h : ∀ p ∈ ps, ∀ name, p.localName = some name →
          startsWithChars name "Aranet4".toList = false) :
    scanFirstMatch ps = none := by
  induction ps with
  | nil => rfl
  | cons q rest ih =>
    have hrest := fun p hp => h p (List.mem_cons_of_mem q hp)
    unfold scanFirstMatch
    match hq : q.localName with
    | none => exact ih hrest
    | some name =>
      show (if startsWithChars name "Aranet4".toList = true then some q
            else scanFirstMatch rest) = none
      rw [h q (List.mem_cons_self q rest) name hq]
      simp only [Bool.false_eq_true, if_false]
      exact ih hrest

theorem findDeviceFrom_eq_none (polls : ℕ → List PeripheralM) (start fuel : ℕ)
    (h : ∀ n, start ≤ n → n < start + fuel → scanFirstMatch (polls n) = none) :
    findDeviceFrom polls start fuel = none := by
  induction fuel generalizing start with
  | zero => rfl
  | succ f ih =>
    unfold findDeviceFrom
    rw [h start le_rfl (by omega)]
    exact ih (start + 1) (fun n h1 h2 => h n (by omega) (by omega))

/-- C8: when no peripheral observed in any polling round before the
    10-second deadline advertises a name starting with "Aranet4", the race
    ends with `SearchTimeout` — never an empty or partial success. -/
theorem C8_search_timeout (polls : ℕ → List PeripheralM)
    (h : ∀ n, n < 10 → ∀ p ∈ polls n, ∀ name, p.localName = some name →
          startsWithChars name "Aranet4".toList = false) :
    connectModel polls = .searchTimeout := by
  unfold connectModel
  rw [findDeviceFrom_eq_none polls 0 10
    (fun n _ h2 => scanFirstMatch_eq_none (polls n) (h n (by omega)))]

/-- Witness for C8: an adapter that forever reports one nameless peripheral
    and one named "Other sensor" times out. -/
theorem C8_search_timeout_witness :
    (∀ n, n < 10 → ∀ p ∈ ([⟨none⟩, ⟨some "Other sensor".toList⟩] : List PeripheralM),
        ∀ name, p.localName = some name → startsWithChars name "Aranet4".toList = false)
    ∧ connectModel (fun _ => [⟨none⟩, ⟨some "Other sensor".toList⟩]) = .searchTimeout :=
  ⟨by decide, C8_search_timeout (fun _ => [⟨none⟩, ⟨some "Other sensor".toList⟩]) (by decide)⟩

/-- C9: whatever peripheral a scan round returns advertises a name starting
    with "Aranet4" — so a peripheral with no advertised name is never the
    match — and prepending a nameless peripheral to a round leaves the
    round's outcome unchanged: it is skipped without error, and the scan
    continues with the rest. -/
theorem C9_nameless_skipped (cs : List PeripheralM) (p : PeripheralM)
    (h : scanFirstMatch cs = some p) :
    (∃ name, p.localName = some name ∧ startsWithChars name "Aranet4".toList = true)
    ∧ ∀ ds : List PeripheralM, scanFirstMatch (⟨none⟩ :: ds) = scanFirstMatch ds := by
  refine ⟨?_, fun ds => rfl⟩
  induction cs with
  | nil => exact absurd h (by simp [scanFirstMatch])
  | cons q rest ih =>
    unfold scanFirstMatch at h
    revert h
    match hq : q.localName with
    | none => exact ih
    | some name =>
      show (if startsWithChars name "Aranet4".toList = true then some q
            else scanFirstMatch rest) = some p
          → ∃ nm, p.localName = some nm ∧ startsWithChars nm "Aranet4".toList = true
      by_cases hpre : startsWithChars name "Aranet4".toList = true
      · rw [hpre]
        simp only [if_true]
        intro h
        obtain rfl : q = p := Option.some.inj h
        exact ⟨name, hq, hpre⟩
      · rw [eq_false_of_ne_true hpre]
        simp only [Bool.false_eq_true, if_false]
        exact ih

/-- Witness for C9: a round listing a nameless peripheral before an
    "Aranet4 home" peripheral matches the named one. -/
theorem C9_nameless_skipped_witness :
    scanFirstMatch [⟨none⟩, ⟨some "Aranet4 home".toList⟩] = some ⟨some "Aranet4 home".toList⟩
    ∧ ((∃ name, (⟨some "Aranet4 home".toList⟩ : PeripheralM).localName = some name
          ∧ startsWithChars name "Aranet4".toList = true)
      ∧ ∀ ds : List PeripheralM, scanFirstMatch (⟨none⟩ :: ds) = scanFirstMatch ds) :=
  ⟨by decide,
   C9_nameless_skipped [⟨none⟩, ⟨some "Aranet4 home".toList⟩] ⟨some "Aranet4 home".toList⟩
     (by decide)⟩

end Aranet
